import Mathlib

/-!
Verification of the Crime_Estimation school-closure reconciliation pipeline.

The definitions below are a shallow embedding of the Python scripts under
src/code (pandas data frames become lists of records, third-party library
calls such as the fuzzywuzzy scorer and shapely polygon containment become
explicit function parameters).  Each section names the script and the
variables it embeds.
-/

/-! ## Generic list helpers

These model pandas primitives used throughout the scripts:
mapping a fallible function over a column (a cast that raises aborts the
whole script, hence an Option result), drop_duplicates over a key column
(keep the first occurrence), a group max, and a python dict built with
dict(zip(keys, values)) (a later duplicate key overwrites an earlier one).
-/

def traverseOption {α β : Type} (f : α → Option β) : List α → Option (List β)
  | [] => some []
  | x :: xs =>
    match f x, traverseOption f xs with
    | some y, some ys => some (y :: ys)
    | _, _ => none

theorem traverseOption_mem {α β : Type} (f : α → Option β) :
    ∀ (l : List α) (res : List β), traverseOption f l = some res →
      ∀ b ∈ res, ∃ a ∈ l, f a = some b := by
  intro l
  induction l with
  | nil => intro res h b hb; simp [traverseOption] at h; subst h; simp at hb
  | cons x xs ih =>
    intro res h b hb
    simp only [traverseOption] at h
    cases hfx : f x with
    | none => rw [hfx] at h; simp at h
    | some y =>
      rw [hfx] at h
      cases hrest : traverseOption f xs with
      | none => rw [hrest] at h; simp at h
      | some ys =>
        rw [hrest] at h
        simp only [Option.some.injEq] at h
        subst h
        rcases List.mem_cons.1 hb with hb | hb
        · exact ⟨x, by simp, by rw [hfx, hb]⟩
        · rcases ih ys hrest b hb with ⟨a, ha, hfa⟩
          exact ⟨a, by simp [ha], hfa⟩

theorem traverseOption_mem_of_mem {α β : Type} (f : α → Option β) :
    ∀ (l : List α) (res : List β), traverseOption f l = some res →
      ∀ a ∈ l, ∃ b ∈ res, f a = some b := by
  intro l
  induction l with
  | nil => intro res _ a ha; simp at ha
  | cons x xs ih =>
    intro res h a ha
    simp only [traverseOption] at h
    cases hfx : f x with
    | none => rw [hfx] at h; simp at h
    | some y =>
      rw [hfx] at h
      cases hrest : traverseOption f xs with
      | none => rw [hrest] at h; simp at h
      | some ys =>
        rw [hrest] at h
        simp only [Option.some.injEq] at h
        subst h
        rcases List.mem_cons.1 ha with ha | ha
        · exact ⟨y, by simp, by rw [ha, hfx]⟩
        · rcases ih ys hrest a ha with ⟨b, hb, hfb⟩
          exact ⟨b, by simp [hb], hfb⟩

/-- pandas drop_duplicates(key): keep the first row for each key value,
implemented with an accumulator of the key values already seen. -/
def dedupByKeyAux {α κ : Type} [BEq κ] (key : α → κ) : List α → List κ → List α
  | [], _ => []
  | x :: xs, seen =>
    if seen.contains (key x) then dedupByKeyAux key xs seen
    else x :: dedupByKeyAux key xs (key x :: seen)

def dedupByKey {α κ : Type} [BEq κ] (key : α → κ) (l : List α) : List α :=
  dedupByKeyAux key l []

theorem mem_of_mem_dedupByKeyAux {α κ : Type} [BEq κ] (key : α → κ) :
    ∀ (l : List α) (seen : List κ) (r : α), r ∈ dedupByKeyAux key l seen → r ∈ l := by
  intro l
  induction l with
  | nil => intro seen r h; simp [dedupByKeyAux] at h
  | cons x xs ih =>
    intro seen r h
    simp only [dedupByKeyAux] at h
    by_cases hc : seen.contains (key x)
    · rw [if_pos hc] at h
      exact List.mem_cons.2 (Or.inr (ih seen r h))
    · rw [if_neg hc] at h
      rcases List.mem_cons.1 h with h | h
      · exact List.mem_cons.2 (Or.inl h)
      · exact List.mem_cons.2 (Or.inr (ih _ r h))

theorem not_seen_of_mem_dedupByKeyAux {α κ : Type} [BEq κ] [LawfulBEq κ] (key : α → κ) :
    ∀ (l : List α) (seen : List κ) (r : α), r ∈ dedupByKeyAux key l seen →
      ¬ key r ∈ seen := by
  intro l
  induction l with
  | nil => intro seen r h; simp [dedupByKeyAux] at h
  | cons x xs ih =>
    intro seen r h
    simp only [dedupByKeyAux] at h
    by_cases hc : seen.contains (key x)
    · rw [if_pos hc] at h
      exact ih seen r h
    · rw [if_neg hc] at h
      rcases List.mem_cons.1 h with h | h
      · subst h
        intro hmem
        exact hc (List.elem_iff.2 hmem)
      · intro hmem
        exact ih (key x :: seen) r h (List.mem_cons.2 (Or.inr hmem))

theorem pairwise_key_dedupByKeyAux {α κ : Type} [BEq κ] [LawfulBEq κ] (key : α → κ) :
    ∀ (l : List α) (seen : List κ),
      (dedupByKeyAux key l seen).Pairwise (fun a b => key a ≠ key b) := by
  intro l
  induction l with
  | nil => intro seen; simp [dedupByKeyAux]
  | cons x xs ih =>
    intro seen
    simp only [dedupByKeyAux]
    by_cases hc : seen.contains (key x)
    · rw [if_pos hc]; exact ih seen
    · rw [if_neg hc]
      refine List.Pairwise.cons ?_ (ih (key x :: seen))
      intro b hb heq
      exact not_seen_of_mem_dedupByKeyAux key xs (key x :: seen) b hb
        (List.mem_cons.2 (Or.inl heq.symm))

theorem exists_dedupByKeyAux_of_mem {α κ : Type} [BEq κ] [LawfulBEq κ] (key : α → κ) :
    ∀ (l : List α) (seen : List κ) (s : α), s ∈ l → ¬ key s ∈ seen →
      ∃ r ∈ dedupByKeyAux key l seen, key r = key s := by
  intro l
  induction l with
  | nil => intro seen s hs _; simp at hs
  | cons x xs ih =>
    intro seen s hs hseen
    simp only [dedupByKeyAux]
    by_cases hc : seen.contains (key x)
    · rw [if_pos hc]
      rcases List.mem_cons.1 hs with hs | hs
      · subst hs
        exact absurd (List.elem_iff.1 hc) hseen
      · exact ih seen s hs hseen
    · rw [if_neg hc]
      rcases List.mem_cons.1 hs with hs | hs
      · subst hs
        exact ⟨s, by simp, rfl⟩
      · by_cases hk : key s = key x
        · exact ⟨x, by simp, hk.symm⟩
        · have hseen2 : ¬ key s ∈ (key x :: seen) := by
            intro hmem
            rcases List.mem_cons.1 hmem with h | h
            · exact hk h
            · exact hseen h
          rcases ih (key x :: seen) s hs hseen2 with ⟨r, hr, hkr⟩
          exact ⟨r, List.mem_cons.2 (Or.inr hr), hkr⟩

theorem dedupByKeyAux_eq_nil {α κ : Type} [BEq κ] [LawfulBEq κ] (key : α → κ) :
    ∀ (l : List α) (seen : List κ), (∀ x ∈ l, key x ∈ seen) →
      dedupByKeyAux key l seen = [] := by
  intro l
  induction l with
  | nil => intro seen _; simp [dedupByKeyAux]
  | cons x xs ih =>
    intro seen h
    simp only [dedupByKeyAux]
    rw [if_pos (List.elem_iff.2 (h x (by simp)))]
    exact ih seen (fun y hy => h y (by simp [hy]))

theorem dedupByKey_const {α κ : Type} [BEq κ] [LawfulBEq κ] (key : α → κ)
    (l : List α) (a : α) (h : ∀ x ∈ l, x = a) (hne : l ≠ []) :
    dedupByKey key l = [a] := by
  cases l with
  | nil => exact absurd rfl hne
  | cons x xs =>
    have hx : x = a := h x (by simp)
    subst hx
    simp only [dedupByKey, dedupByKeyAux, List.contains_nil, if_neg Bool.false_ne_true]
    rw [dedupByKeyAux_eq_nil key xs (key x :: []) ?_]
    intro y hy
    rw [h y (by simp [hy])]
    simp

/-- Maximum of a nonempty group, as produced by a pandas groupby(...).agg(max). -/
def foldlMax (x : Int) (xs : List Int) : Int := xs.foldl max x

theorem foldlMax_mem (xs : List Int) : ∀ x : Int, foldlMax x xs = x ∨ foldlMax x xs ∈ xs := by
  induction xs with
  | nil => intro x; left; rfl
  | cons y ys ih =>
    intro x
    rcases ih (max x y) with h | h
    · rcases max_choice x y with hm | hm
      · left; rw [foldlMax, List.foldl_cons] at *; rw [h, hm]
      · right; rw [foldlMax, List.foldl_cons] at *; rw [h, hm]; simp
    · right
      rw [foldlMax, List.foldl_cons]
      exact List.mem_cons.2 (Or.inr h)

theorem le_foldlMax_init (xs : List Int) : ∀ x : Int, x ≤ foldlMax x xs := by
  induction xs with
  | nil => intro x; exact le_refl x
  | cons y ys ih =>
    intro x
    rw [foldlMax, List.foldl_cons]
    exact le_trans (le_max_left x y) (ih (max x y))

theorem le_foldlMax_of_mem (xs : List Int) :
    ∀ (x b : Int), b ∈ xs → b ≤ foldlMax x xs := by
  induction xs with
  | nil => intro x b hb; simp at hb
  | cons y ys ih =>
    intro x b hb
    rw [foldlMax, List.foldl_cons]
    rcases List.mem_cons.1 hb with hb | hb
    · subst hb
      exact le_trans (le_max_right x b) (le_foldlMax_init ys (max x b))
    · exact ih (max x y) b hb

/-- A python dict built with dict(zip(keys, values)): lookup returns the value
paired with the last occurrence of the key, none when the key is absent. -/
def dictLookup {β : Type} (pairs : List (String × β)) (k : String) : Option β :=
  pairs.foldl (fun acc kv => if kv.1 == k then some kv.2 else acc) none

theorem dictLookup_isSome {β : Type} :
    ∀ (pairs : List (String × β)) (k : String) (acc : Option β),
      (k ∈ pairs.map Prod.fst ∨ acc.isSome = true) →
      (pairs.foldl (fun acc kv => if kv.1 == k then some kv.2 else acc) acc).isSome = true := by
  intro pairs
  induction pairs with
  | nil =>
    intro k acc h
    rcases h with h | h
    · simp at h
    · simpa using h
  | cons kv ps ih =>
    intro k acc h
    rw [List.foldl_cons]
    by_cases hk : kv.1 = k
    · exact ih k _ (Or.inr (by rw [if_pos (by simp [hk])]; rfl))
    · refine ih k _ ?_
      rcases h with h | h
      · rw [List.map_cons] at h
        rcases List.mem_cons.1 h with h | h
        · exact absurd h.symm hk
        · exact Or.inl h
      · exact Or.inr (by rw [if_neg (by simp [hk])]; exact h)

theorem dictLookup_zip_isSome {β : Type} (names : List String) (vals : List β)
    (k : String) (hk : k ∈ names) (hlen : names.length = vals.length) :
    (dictLookup (names.zip vals) k).isSome = true := by
  refine dictLookup_isSome (names.zip vals) k none (Or.inl ?_)
  rw [List.map_fst_zip names vals (le_of_eq hlen)]
  exact hk

/-! ## Fuzzy matching

Embeds the fuzzywuzzy calls of the scripts.  The third-party similarity
scorer is an explicit parameter `score`; `process.extractOne(query, choices)`
scans the choices and keeps the first best-scoring one, returning none on an
empty choice list.  Every script wraps the call as
`process.extractOne(nm, names) or ("", 0)`, embedded as `extractOneD`.
-/

def extractOneAux (score : String → String → Nat) (query : String) :
    List String → String × Nat → String × Nat
  | [], best => best
  | c :: cs, best =>
    extractOneAux score query cs (if best.2 < score query c then (c, score query c) else best)

def extractOne (score : String → String → Nat) (query : String) :
    List String → Option (String × Nat)
  | [] => none
  | c :: cs => some (extractOneAux score query cs (c, score query c))

def extractOneD (score : String → String → Nat) (query : String)
    (choices : List String) : String × Nat :=
  (extractOne score query choices).getD ("", 0)

theorem extractOneAux_mem (score : String → String → Nat) (query : String) :
    ∀ (l : List String) (best : String × Nat),
      extractOneAux score query l best = best ∨
      (extractOneAux score query l best).1 ∈ l := by
  intro l
  induction l with
  | nil => intro best; left; rfl
  | cons c cs ih =>
    intro best
    simp only [extractOneAux]
    by_cases h : best.2 < score query c
    · rw [if_pos h]
      rcases ih (c, score query c) with h2 | h2
      · right; rw [h2]; simp
      · right; exact List.mem_cons.2 (Or.inr h2)
    · rw [if_neg h]
      rcases ih best with h2 | h2
      · left; exact h2
      · right; exact List.mem_cons.2 (Or.inr h2)

theorem extractOneD_fst_mem (score : String → String → Nat) (query : String)
    (choices : List String) (hne : choices ≠ []) :
    (extractOneD score query choices).1 ∈ choices := by
  cases choices with
  | nil => exact absurd rfl hne
  | cons c cs =>
    simp only [extractOneD, extractOne, Option.getD_some]
    rcases extractOneAux_mem score query cs (c, score query c) with h | h
    · rw [h]; simp
    · exact List.mem_cons.2 (Or.inr h)

/-- One output row of `fuzzy_match_ids` in 04a_finalize_closures.py:
columns matched_name, matched_id, score. -/
structure MatchRow where
  matched_name : Option String
  matched_id : Option Int
  score : Nat
deriving DecidableEq, Repr

/-- 04a_finalize_closures.py, `fuzzy_match_ids` applied to one raw name:
take the best fuzzy candidate (default ("", 0) when there are no choices),
map the matched name through dict(zip(ref_names, ref_ids)), then null out
matched_name and matched_id when the score is below the threshold, keeping
the score column untouched. -/
def fuzzyMatchRow (score : String → String → Nat) (ref_names : List String)
    (ref_ids : List Int) (threshold : Nat) (nm : String) : MatchRow :=
  if (extractOneD score nm ref_names).2 < threshold then
    { matched_name := none, matched_id := none,
      score := (extractOneD score nm ref_names).2 }
  else
    { matched_name := some (extractOneD score nm ref_names).1,
      matched_id := dictLookup (ref_names.zip ref_ids) (extractOneD score nm ref_names).1,
      score := (extractOneD score nm ref_names).2 }

/-- 04a_finalize_closures.py lines 5-18, `fuzzy_match_ids` over the whole
Series of raw names. -/
def fuzzy_match_ids (score : String → String → Nat) (raw_names : List String)
    (ref_names : List String) (ref_ids : List Int) (threshold : Nat) : List MatchRow :=
  raw_names.map (fuzzyMatchRow score ref_names ref_ids threshold)

/-- A row counts as accepted when its matched_id survived the threshold gate. -/
def acceptedRow (r : MatchRow) : Bool := r.matched_id.isSome

/-! ## Data model

School boundary rows (school_shapes.parquet), closure rows
(school_closure_years.csv), external reference rows
(school_closure_reference.csv) and address-review rows
(school_closures_2013_address_review.csv).  SCHOOL_ID is read as a float
column that can be missing, hence Option Int; GRADE_CAT can likewise be
missing on rows produced by an unmatched merge.
-/

structure SchoolRow where
  school_id : Int
  school_nm : String
  grade_cat : String
  file_year : String
deriving DecidableEq, Repr

structure ClosureRow where
  school_id : Option Int
  school_nm : String
  grade_cat : Option String
  last_open_year : Int
  closure_year : Int
deriving DecidableEq, Repr

structure RefRow where
  school_nm : String
  grade_cat : String
  closure_year : Int
deriving DecidableEq, Repr

structure AddrReviewRow where
  raw_school_name : String
  raw_address : String
  matched_address : String
  matched_school_id : Option Int
  matched_school_nm : String
  matched_grade_cat : Option String
  addr_match_score : Nat
deriving DecidableEq, Repr

/-! ## school_opening_map.py

Derives academic_year_start from the 4-digit file_year code (line 36-38),
builds the distinct (SCHOOL_ID, GRADE_CAT) pairs, takes the per-pair max
year as last_open_year with closure_year = last_open_year + 1 (lines
86-95), attaches the representative name taken from the file_year-sorted
first occurrence of the id (lines 96-100), and keeps only rows with
closure_year < 2019 (line 101).
-/

/-- Decimal digit parsing of a character run, as python's int() over a
sliced string: fails on an empty slice or a non-digit character. -/
def digitsToNat : List Char → Nat → Option Nat
  | [], acc => some acc
  | c :: cs, acc =>
    if c.isDigit then digitsToNat cs (acc * 10 + (c.toNat - 48)) else none

def parseNat (cs : List Char) : Option Nat :=
  match cs with
  | [] => none
  | _ => digitsToNat cs 0

/-- Lines 36-38: first two characters of file_year, cast to int, plus 2000.
The cast raises (aborting the script) on a non-numeric prefix, hence Option. -/
def academicYearStart (fy : String) : Option Int :=
  (parseNat (fy.toList.take 2)).map (fun n => (n : Int) + 2000)

/-- The distinct (SCHOOL_ID, GRADE_CAT) pairs of the boundary table, in
order of first appearance (the groupby keys). -/
def pairKeys (rows : List SchoolRow) : List (Int × String) :=
  dedupByKey (fun k => k) (rows.map (fun r => (r.school_id, r.grade_cat)))

/-- The file_year values of all boundary rows of one (SCHOOL_ID, GRADE_CAT)
group. -/
def groupFileYears (rows : List SchoolRow) (k : Int × String) : List String :=
  (rows.filter (fun r => r.school_id == k.1 && r.grade_cat == k.2)).map (fun r => r.file_year)

/-- Lines 90-94: the greatest academic_year_start of the group (none when
the group is empty or a file_year fails to parse). -/
def lastOpenYear (rows : List SchoolRow) (k : Int × String) : Option Int :=
  (traverseOption academicYearStart (groupFileYears rows k)).bind
    (fun ys => match ys with
      | [] => none
      | y :: ys2 => some (foldlMax y ys2))

/-- Lexicographic comparison of strings as character lists. -/
def charListLe : List Char → List Char → Bool
  | [], _ => true
  | _ :: _, [] => false
  | c :: cs, d :: ds => if c < d then true else if d < c then false else charListLe cs ds

/-- Ordering of boundary rows by file_year, used for the representative
name (sort_values("file_year") then drop_duplicates("SCHOOL_ID")). -/
def byFileYear (a b : SchoolRow) : Prop :=
  charListLe a.file_year.toList b.file_year.toList = true

instance : DecidableRel byFileYear :=
  fun a b => (inferInstance : Decidable (charListLe a.file_year.toList b.file_year.toList = true))

/-- Lines 96-99: representative SCHOOL_NM of an id, the name on its first
row after sorting by file_year. -/
def repName (rows : List SchoolRow) (sid : Int) : String :=
  match (rows.insertionSort byFileYear).find? (fun r => r.school_id == sid) with
  | some r => r.school_nm
  | none => ""

/-- The closure record of one (SCHOOL_ID, GRADE_CAT) group (lines 90-100):
last_open_year is the group max year and closure_year = last_open_year + 1. -/
def closureFor (rows : List SchoolRow) (k : Int × String) : Option ClosureRow :=
  (lastOpenYear rows k).map (fun y =>
    { school_id := some k.1, school_nm := repName rows k.1, grade_cat := some k.2,
      last_open_year := y, closure_year := y + 1 })

/-- Lines 86-104: the computed closure table school_closure_years.csv, one
row per (SCHOOL_ID, GRADE_CAT) pair, filtered to closure_year < 2019. -/
def computedClosures (rows : List SchoolRow) : Option (List ClosureRow) :=
  (traverseOption (closureFor rows) (pairKeys rows)).map
    (fun l => l.filter (fun c => c.closure_year < 2019))

/-! ## 04a_finalize_closures.py

Address pass (lines 27-44): keep review rows with addr_match_score >= 90,
drop duplicate matched ids, assign last_open_year=2012 / closure_year=2013,
then select the ids not already in the computed table.  The script prints
the selection but never concatenates it into all_close (lines 131-135 use
only computed and to_add_ref).

Reference pass (lines 46-74): fuzzy-match reference names against shape
names at threshold 80, keep the rows whose matched_id is non-null, set
last_open_year = closure_year - 1.

Final table (lines 110-143): append the reference rows whose SCHOOL_ID is
absent from computed, then sort by closure_year and keep the first row per
SCHOOL_ID.
-/

/-- Lines 27-40: the address-based closure candidates. -/
def addrClosures04a (review : List AddrReviewRow) : List ClosureRow :=
  (dedupByKey (fun r => r.matched_school_id)
      (review.filter (fun r => 90 ≤ r.addr_match_score))).map
    (fun r =>
      { school_id := r.matched_school_id, school_nm := r.matched_school_nm,
        grade_cat := r.matched_grade_cat, last_open_year := 2012, closure_year := 2013 })

/-- Line 43: to_add_addr, the address candidates whose id is not yet in the
computed table.  Computed and printed by the script but never merged. -/
def toAddAddr (computed : List ClosureRow) (review : List AddrReviewRow) : List ClosureRow :=
  (addrClosures04a review).filter
    (fun r => !(computed.any (fun c => c.school_id == r.school_id)))

/-- Lines 57-71: the reference-based closure rows; rows whose fuzzy match
was nulled out are dropped by dropna(subset=["matched_id"]). -/
def refClosures (score : String → String → Nat) (refRows : List RefRow)
    (shape_names : List String) (shape_ids : List Int) : List ClosureRow :=
  refRows.filterMap (fun r =>
    let m := fuzzyMatchRow score shape_names shape_ids 80 r.school_nm
    m.matched_id.map (fun sid =>
      { school_id := some sid, school_nm := m.matched_name.getD "",
        grade_cat := some r.grade_cat,
        last_open_year := r.closure_year - 1, closure_year := r.closure_year }))

/-- Line 111: to_add_ref, reference rows whose SCHOOL_ID is absent from the
computed table. -/
def toAddRef (computed : List ClosureRow) (ref : List ClosureRow) : List ClosureRow :=
  ref.filter (fun r => !(computed.any (fun c => c.school_id == r.school_id)))

/-- Lines 131-135: all_close before de-duplication, the concatenation of the
computed table and to_add_ref (to_add_addr is not included). -/
def allCloseBeforeDedup (computed : List ClosureRow) (ref : List ClosureRow) : List ClosureRow :=
  computed ++ toAddRef computed ref

/-- Ordering of closure rows by closure_year (sort_values("closure_year")). -/
def byYear (a b : ClosureRow) : Prop := a.closure_year ≤ b.closure_year

instance : DecidableRel byYear :=
  fun a b => (inferInstance : Decidable (a.closure_year ≤ b.closure_year))

instance : IsTotal ClosureRow byYear :=
  ⟨fun a b => le_total a.closure_year b.closure_year⟩

instance : IsTrans ClosureRow byYear :=
  ⟨fun _ _ _ hab hbc => le_trans hab hbc⟩

/-- Lines 137-143: sort by closure_year ascending and keep the first row of
each SCHOOL_ID. -/
def finalDedup (rows : List ClosureRow) : List ClosureRow :=
  dedupByKey (fun r => r.school_id) (rows.insertionSort byYear)

/-- Lines 131-143: the final closure table all_close. -/
def allClose04a (computed : List ClosureRow) (ref : List ClosureRow) : List ClosureRow :=
  finalDedup (allCloseBeforeDedup computed ref)

/-! ## final_school_closure.py

Address pass (lines 11-41): from the address review file keep the rows with
a non-null matched_SCHOOL_ID, drop duplicate ids, keep those absent from
the closure table, assign last_open_year=2012 / closure_year=2013 and
append.  No addr_match_score filter is applied in this script.
-/

/-- Lines 11-20: addr_unique, review rows with a non-null matched id,
de-duplicated by id. -/
def addrUniqueFSC (review : List AddrReviewRow) : List AddrReviewRow :=
  dedupByKey (fun r => r.matched_school_id)
    (review.filter (fun r => r.matched_school_id.isSome))

/-- Line 29: to_add, the addr_unique rows whose id is absent from the
closure table. -/
def toAddFSC (closure_df : List ClosureRow) (review : List AddrReviewRow) :
    List AddrReviewRow :=
  (addrUniqueFSC review).filter
    (fun r => !(closure_df.any (fun c => c.school_id == r.matched_school_id)))

/-- Lines 35-38: the fixed 2013-wave year assignment. -/
def assignFSC (r : AddrReviewRow) : ClosureRow :=
  { school_id := r.matched_school_id, school_nm := r.matched_school_nm,
    grade_cat := r.matched_grade_cat, last_open_year := 2012, closure_year := 2013 }

/-- Line 41: the closure table after appending the address-based rows. -/
def updatedFSC (closure_df : List ClosureRow) (review : List AddrReviewRow) :
    List ClosureRow :=
  closure_df ++ (toAddFSC closure_df review).map assignFSC

/-! ## welcoming_school_additions.py

Lines 32-61: fuzzy-match each raw 2013 row's "School" name against the
shape names at threshold 90, assigning SCHOOL_ID and GRADE_CAT only when
the score reaches the threshold.  Lines 64-78: rows whose SCHOOL_ID is not
in the closure table become new closure rows with last_open_year=2013 /
closure_year=2014 and are appended.
-/

structure Raw2013Row where
  school : String
  school_nm : String
deriving DecidableEq, Repr

structure Matched2013 where
  school : String
  school_nm : String
  matched_name : String
  match_score : Nat
  school_id : Option Int
  grade_cat : Option String
deriving DecidableEq, Repr

/-- Lines 32-58, match_school_names.  When the score reaches the threshold
the id and grade category are looked up from the first shapes row bearing
the matched name; that row always exists for a non-zero threshold because
the matched name is drawn from the shapes names (in the source an
IndexError would abort the script otherwise). -/
def match_school_names (score : String → String → Nat) (shapes : List SchoolRow)
    (threshold : Nat) (raws : List Raw2013Row) : List Matched2013 :=
  raws.map (fun r =>
    let best := extractOneD score r.school (shapes.map (fun s => s.school_nm))
    if threshold ≤ best.2 then
      match shapes.find? (fun s => s.school_nm == best.1) with
      | some srow =>
        { school := r.school, school_nm := r.school_nm, matched_name := best.1,
          match_score := best.2, school_id := some srow.school_id,
          grade_cat := some srow.grade_cat }
      | none =>
        { school := r.school, school_nm := r.school_nm, matched_name := best.1,
          match_score := best.2, school_id := none, grade_cat := none }
    else
      { school := r.school, school_nm := r.school_nm, matched_name := best.1,
        match_score := best.2, school_id := none, grade_cat := none })

/-- Line 65: the matched rows whose SCHOOL_ID is not in the closure table. -/
def welcomingMissing (closure_df : List ClosureRow) (matched : List Matched2013) :
    List Matched2013 :=
  matched.filter (fun m => !(closure_df.any (fun c => c.school_id == m.school_id)))

/-- Lines 71-74: new_rows, with the fixed last_open_year=2013 /
closure_year=2014 assignment. -/
def welcomingNewRows (closure_df : List ClosureRow) (matched : List Matched2013) :
    List ClosureRow :=
  (welcomingMissing closure_df matched).map (fun m =>
    { school_id := m.school_id, school_nm := m.school_nm, grade_cat := m.grade_cat,
      last_open_year := 2013, closure_year := 2014 })

/-- Line 77: the closure table after appending new_rows. -/
def updatedWelcoming (closure_df : List ClosureRow) (matched : List Matched2013) :
    List ClosureRow :=
  closure_df ++ welcomingNewRows closure_df matched

/-! ## 03_yearly_school_data_join.py

Column normalization (lines 70-80): a fixed rename mapping applied to each
source file's column names; unmapped columns pass through.

Containment join (lines 110-140): crimes are joined to school boundary
polygons of every file year with predicate "within" (how="left", so a crime
inside no polygon yields one unmatched row), grouped by
(id, date, primary_type), and the matched SCHOOL_IDs are collected into one
de-duplicated list per grade category.  Polygon containment is a shapely
operation and is a parameter of the embedding.
-/

def rename_map : List (String × String) :=
  [("BoundaryGr", "BOUNDARYGR"),
   ("School_NM", "SCHOOL_NM"),
   ("SchoolID", "SCHOOL_ID"),
   ("Grade_Cat", "GRADE_CAT"),
   ("SchoolAddr", "SCHOOL_ADD"),
   ("SchoolName", "SCHOOL_NM"),
   ("SCHOOLID", "SCHOOL_ID"),
   ("SCHOOL_Nam", "SCHOOL_NM")]

/-- df.rename(columns=rename_map) on one column name. -/
def renameColumn (c : String) : String :=
  match rename_map.find? (fun kv => kv.1 == c) with
  | some kv => kv.2
  | none => c

/-- df.rename(columns=rename_map) on a schema. -/
def renameColumns (cols : List String) : List String :=
  cols.map renameColumn

structure BoundaryRow where
  school_id : Int
  grade_cat : String
  file_year : String
deriving DecidableEq, Repr

structure CrimeRow where
  cid : Int
  cdate : String
  primary_type : String
  cyear : Nat
deriving DecidableEq, Repr

/-- The groupby key of lines 133-137: (id, date, primary_type). -/
def crimeKey (c : CrimeRow) : Int × String × String :=
  (c.cid, c.cdate, c.primary_type)

/-- Lines 119-124: gpd.sjoin(crimes, schools, how="left",
predicate="within").  Each crime is paired with every polygon containing
it; a crime inside no polygon keeps one row with null school columns. -/
def sjoinWithinRows (contains : BoundaryRow → CrimeRow → Bool)
    (crimes : List CrimeRow) (polys : List BoundaryRow) :
    List (CrimeRow × Option BoundaryRow) :=
  crimes.flatMap (fun c =>
    if (polys.filter (fun p => contains p c)).isEmpty then [(c, none)]
    else (polys.filter (fun p => contains p c)).map (fun p => (c, some p)))

structure GradeLists where
  es : List Int
  ms : List Int
  hs : List Int
deriving DecidableEq, Repr

/-- Lines 126-131, collect_by_grade: the de-duplicated SCHOOL_IDs of one
group, split by grade category (dropna().unique().tolist()). -/
def collect_by_grade (matched : List BoundaryRow) : GradeLists :=
  { es := dedupByKey (fun i => i)
      ((matched.filter (fun p => p.grade_cat == "ES")).map (fun p => p.school_id)),
    ms := dedupByKey (fun i => i)
      ((matched.filter (fun p => p.grade_cat == "MS")).map (fun p => p.school_id)),
    hs := dedupByKey (fun i => i)
      ((matched.filter (fun p => p.grade_cat == "HS")).map (fun p => p.school_id)) }

/-- The polygons matched to one groupby key in the joined table (the
non-null school side of the rows bearing that key). -/
def matchedForKey (rows : List (CrimeRow × Option BoundaryRow))
    (k : Int × String × String) : List BoundaryRow :=
  (rows.filter (fun row => crimeKey row.1 == k)).filterMap (fun row => row.2)

/-- Lines 133-140: the per-crime grade-category lists of
crime_with_school_match.parquet for one groupby key. -/
def collectForKey (rows : List (CrimeRow × Option BoundaryRow))
    (k : Int × String × String) : GradeLists :=
  collect_by_grade (matchedForKey rows k)

/-! ## crime_nearest_school.py

Lines 92-101: the temporal-consistency filter compares the crime's
two-digit year suffix (date.strftime of %y) with the trailing digits of the
boundary file_year code.
-/

/-- strftime %y: the calendar year modulo 100, zero-padded to two digits. -/
def yrSuffix (year : Nat) : String :=
  String.mk [Char.ofNat (48 + year % 100 / 10), Char.ofNat (48 + year % 100 % 10)]

/-- str.endswith over the underlying character lists. -/
def endsWithChars (s suffix : List Char) : Bool :=
  suffix == s.drop (s.length - suffix.length)

/-- One boundary year code is consistent with a crime year when the code
ends with the crime's two-digit year suffix (line 97). -/
def yearMatches (p : BoundaryRow) (year : Nat) : Bool :=
  endsWithChars p.file_year.toList (yrSuffix year).toList

/-! ## Lemmas about the fuzzy matcher -/

theorem fuzzyMatchRow_score (score : String → String → Nat) (ref_names : List String)
    (ref_ids : List Int) (t : Nat) (nm : String) :
    (fuzzyMatchRow score ref_names ref_ids t nm).score = (extractOneD score nm ref_names).2 := by
  unfold fuzzyMatchRow
  by_cases h : (extractOneD score nm ref_names).2 < t
  · rw [if_pos h]
  · rw [if_neg h]

theorem fuzzyMatchRow_low (score : String → String → Nat) (ref_names : List String)
    (ref_ids : List Int) (t : Nat) (nm : String)
    (h : (extractOneD score nm ref_names).2 < t) :
    fuzzyMatchRow score ref_names ref_ids t nm =
      { matched_name := none, matched_id := none,
        score := (extractOneD score nm ref_names).2 } := by
  unfold fuzzyMatchRow
  rw [if_pos h]

theorem fuzzyMatchRow_high (score : String → String → Nat) (ref_names : List String)
    (ref_ids : List Int) (t : Nat) (nm : String)
    (h : ¬ (extractOneD score nm ref_names).2 < t) :
    fuzzyMatchRow score ref_names ref_ids t nm =
      { matched_name := some (extractOneD score nm ref_names).1,
        matched_id := dictLookup (ref_names.zip ref_ids) (extractOneD score nm ref_names).1,
        score := (extractOneD score nm ref_names).2 } := by
  unfold fuzzyMatchRow
  rw [if_neg h]

theorem acceptedRow_mono (score : String → String → Nat) (ref_names : List String)
    (ref_ids : List Int) (t1 t2 : Nat) (nm : String) (h : t1 ≤ t2)
    (h2 : acceptedRow (fuzzyMatchRow score ref_names ref_ids t2 nm) = true) :
    acceptedRow (fuzzyMatchRow score ref_names ref_ids t1 nm) = true := by
  by_cases hlt : (extractOneD score nm ref_names).2 < t2
  · rw [fuzzyMatchRow_low score ref_names ref_ids t2 nm hlt] at h2
    simp [acceptedRow] at h2
  · have hlt1 : ¬ (extractOneD score nm ref_names).2 < t1 := by
      intro hc
      exact hlt (lt_of_lt_of_le hc h)
    rw [fuzzyMatchRow_high score ref_names ref_ids t2 nm hlt] at h2
    rw [fuzzyMatchRow_high score ref_names ref_ids t1 nm hlt1]
    exact h2

theorem countP_accepted_mono (score : String → String → Nat) (ref_names : List String)
    (ref_ids : List Int) (t1 t2 : Nat) (h : t1 ≤ t2) :
    ∀ raws : List String,
      (fuzzy_match_ids score raws ref_names ref_ids t2).countP acceptedRow ≤
        (fuzzy_match_ids score raws ref_names ref_ids t1).countP acceptedRow := by
  intro raws
  induction raws with
  | nil => simp [fuzzy_match_ids]
  | cons x xs ih =>
    simp only [fuzzy_match_ids, List.map_cons, List.countP_cons]
    refine Nat.add_le_add ih ?_
    by_cases hx : acceptedRow (fuzzyMatchRow score ref_names ref_ids t2 x) = true
    · rw [if_pos hx, if_pos (acceptedRow_mono score ref_names ref_ids t1 t2 x h hx)]
    · rw [if_neg hx]
      split <;> simp

/-! ## Lemmas about the final de-duplication -/

theorem dedup_min_of_sorted :
    ∀ (l : List ClosureRow) (seen : List (Option Int)),
      l.Pairwise byYear →
      ∀ r ∈ dedupByKeyAux (fun c => c.school_id) l seen,
        ∀ s ∈ l, s.school_id = r.school_id → r.closure_year ≤ s.closure_year := by
  intro l
  induction l with
  | nil => intro seen _ r hr; simp [dedupByKeyAux] at hr
  | cons x xs ih =>
    intro seen hsort r hr s hs hid
    have hx : ∀ y ∈ xs, byYear x y := fun y hy => List.rel_of_pairwise_cons hsort hy
    have hxs := List.Pairwise.of_cons hsort
    simp only [dedupByKeyAux] at hr
    by_cases hc : seen.contains x.school_id
    · rw [if_pos hc] at hr
      rcases List.mem_cons.1 hs with hs | hs
      · exfalso
        have hnot := not_seen_of_mem_dedupByKeyAux (fun c => c.school_id) xs seen r hr
        rw [hs] at hid
        rw [hid] at hc
        exact hnot (List.elem_iff.1 hc)
      · exact ih seen hxs r hr s hs hid
    · rw [if_neg hc] at hr
      rcases List.mem_cons.1 hr with hr | hr
      · subst hr
        rcases List.mem_cons.1 hs with hs | hs
        · rw [hs]
        · exact hx s hs
      · rcases List.mem_cons.1 hs with hs | hs
        · exfalso
          have hnot := not_seen_of_mem_dedupByKeyAux (fun c => c.school_id) xs
            (x.school_id :: seen) r hr
          rw [hs] at hid
          exact hnot (List.mem_cons.2 (Or.inl hid.symm))
        · exact ih (x.school_id :: seen) hxs r hr s hs hid

theorem mem_of_mem_finalDedup (rows : List ClosureRow) (r : ClosureRow)
    (hr : r ∈ finalDedup rows) : r ∈ rows := by
  have hr2 : r ∈ dedupByKeyAux (fun c : ClosureRow => c.school_id)
      (rows.insertionSort byYear) [] := hr
  have h1 : r ∈ rows.insertionSort byYear :=
    mem_of_mem_dedupByKeyAux (fun c : ClosureRow => c.school_id)
      (rows.insertionSort byYear) [] r hr2
  exact (List.mem_insertionSort byYear).1 h1

theorem finalDedup_pairwise (rows : List ClosureRow) :
    (finalDedup rows).Pairwise (fun a b => a.school_id ≠ b.school_id) :=
  pairwise_key_dedupByKeyAux (fun c => c.school_id) (rows.insertionSort byYear) []

theorem finalDedup_min (rows : List ClosureRow) (r : ClosureRow)
    (hr : r ∈ finalDedup rows) :
    ∀ s ∈ rows, s.school_id = r.school_id → r.closure_year ≤ s.closure_year := by
  intro s hs hid
  have hr2 : r ∈ dedupByKeyAux (fun c : ClosureRow => c.school_id)
      (rows.insertionSort byYear) [] := hr
  have hsort : (rows.insertionSort byYear).Pairwise byYear :=
    List.sorted_insertionSort byYear rows
  exact dedup_min_of_sorted (rows.insertionSort byYear) [] hsort r hr2 s
    ((List.mem_insertionSort byYear).2 hs) hid

/-! ## Lemmas about the computed closure table -/

theorem closureFor_fields (rows : List SchoolRow) (k : Int × String) (c : ClosureRow)
    (h : closureFor rows k = some c) :
    lastOpenYear rows k = some c.last_open_year ∧
    c.school_id = some k.1 ∧ c.grade_cat = some k.2 ∧
    c.closure_year = c.last_open_year + 1 := by
  rcases Option.map_eq_some'.1 h with ⟨y, hy, hc⟩
  subst hc
  exact ⟨hy, rfl, rfl, rfl⟩

theorem lastOpenYear_greatest (rows : List SchoolRow) (k : Int × String) (y : Int)
    (h : lastOpenYear rows k = some y) :
    ∃ ys, traverseOption academicYearStart (groupFileYears rows k) = some ys ∧
      y ∈ ys ∧ ∀ b ∈ ys, b ≤ y := by
  rcases Option.bind_eq_some.1 h with ⟨ys, hys, hmatch⟩
  refine ⟨ys, hys, ?_⟩
  cases ys with
  | nil => simp at hmatch
  | cons y0 rest =>
    simp only [Option.some.injEq] at hmatch
    subst hmatch
    constructor
    · rcases foldlMax_mem rest y0 with h2 | h2
      · rw [h2]; simp
      · exact List.mem_cons.2 (Or.inr h2)
    · intro b hb
      rcases List.mem_cons.1 hb with hb | hb
      · rw [hb]; exact le_foldlMax_init rest y0
      · exact le_foldlMax_of_mem rest y0 b hb

theorem computedClosures_mem_elim (rows : List SchoolRow) (cs : List ClosureRow)
    (h : computedClosures rows = some cs) (c : ClosureRow) (hc : c ∈ cs) :
    (∃ k ∈ pairKeys rows, closureFor rows k = some c) ∧ c.closure_year < 2019 := by
  rcases Option.map_eq_some'.1 h with ⟨l, hl, hcs⟩
  subst hcs
  have hmem : c ∈ l := List.mem_of_mem_filter hc
  have hpred := List.of_mem_filter hc
  refine ⟨traverseOption_mem (closureFor rows) (pairKeys rows) l hl c hmem, ?_⟩
  exact of_decide_eq_true hpred

theorem computedClosures_complete (rows : List SchoolRow) (cs : List ClosureRow)
    (h : computedClosures rows = some cs) (k : Int × String) (hk : k ∈ pairKeys rows)
    (y : Int) (hy : lastOpenYear rows k = some y) (hlt : y + 1 < 2019) :
    ∃ c ∈ cs, c.school_id = some k.1 ∧ c.grade_cat = some k.2 ∧
      c.last_open_year = y ∧ c.closure_year = y + 1 := by
  rcases Option.map_eq_some'.1 h with ⟨l, hl, hcs⟩
  subst hcs
  rcases traverseOption_mem_of_mem (closureFor rows) (pairKeys rows) l hl k hk with ⟨c, hcl, hck⟩
  have hfields := closureFor_fields rows k c hck
  have hyy : c.last_open_year = y := by
    have := hfields.1
    rw [hy] at this
    exact (Option.some.injEq _ _ ▸ this).symm
  refine ⟨c, ?_, hfields.2.1, hfields.2.2.1, hyy, by rw [hfields.2.2.2, hyy]⟩
  refine List.mem_filter.2 ⟨hcl, ?_⟩
  refine decide_eq_true ?_
  rw [hfields.2.2.2, hyy]
  exact hlt

/-! ## Lemmas about the containment join -/

theorem matchedForKey_append (rows1 rows2 : List (CrimeRow × Option BoundaryRow))
    (k : Int × String × String) :
    matchedForKey (rows1 ++ rows2) k = matchedForKey rows1 k ++ matchedForKey rows2 k := by
  unfold matchedForKey
  rw [List.filter_append, List.filterMap_append]

theorem mem_matchedForKey (contains : BoundaryRow → CrimeRow → Bool)
    (polys : List BoundaryRow) (k : Int × String × String) (q : BoundaryRow) :
    ∀ crimes : List CrimeRow,
      (q ∈ matchedForKey (sjoinWithinRows contains crimes polys) k ↔
        ∃ c ∈ crimes, crimeKey c = k ∧ q ∈ polys ∧ contains q c = true) := by
  intro crimes
  induction crimes with
  | nil =>
    simp [sjoinWithinRows, matchedForKey]
  | cons c cs ih =>
    have hsplit : sjoinWithinRows contains (c :: cs) polys =
        (if (polys.filter (fun p => contains p c)).isEmpty then [(c, none)]
         else (polys.filter (fun p => contains p c)).map (fun p => (c, some p))) ++
        sjoinWithinRows contains cs polys := by
      simp [sjoinWithinRows]
    rw [hsplit, matchedForKey_append, List.mem_append]
    constructor
    · intro h
      rcases h with h | h
      · by_cases hempty : (polys.filter (fun p => contains p c)).isEmpty
        · rw [if_pos hempty] at h
          unfold matchedForKey at h
          rcases List.mem_filterMap.1 h with ⟨row, hrow, hq⟩
          have := List.mem_of_mem_filter hrow
          simp at this
          rw [this] at hq
          simp at hq
        · rw [if_neg hempty] at h
          unfold matchedForKey at h
          rcases List.mem_filterMap.1 h with ⟨row, hrow, hq⟩
          have hrow1 := List.mem_of_mem_filter hrow
          have hrow2 := List.of_mem_filter hrow
          rcases List.mem_map.1 hrow1 with ⟨p, hp, hrowp⟩
          rw [← hrowp] at hq hrow2
          simp only [] at hq hrow2
          have hpq : p = q := by simpa using hq
          subst hpq
          have hkey : crimeKey c = k := by simpa using hrow2
          have hqf := List.mem_filter.1 hp
          exact ⟨c, by simp, hkey, hqf.1, hqf.2⟩
      · rcases ih.1 h with ⟨c2, hc2, hk2, hq2, hcont2⟩
        exact ⟨c2, List.mem_cons.2 (Or.inr hc2), hk2, hq2, hcont2⟩
    · intro h
      rcases h with ⟨c2, hc2, hk2, hq2, hcont2⟩
      rcases List.mem_cons.1 hc2 with hc2 | hc2
      · subst hc2
        left
        have hqhits : q ∈ polys.filter (fun p => contains p c2) :=
          List.mem_filter.2 ⟨hq2, hcont2⟩
        have hempty : ¬ (polys.filter (fun p => contains p c2)).isEmpty := by
          intro hemp
          rw [List.isEmpty_iff.1 hemp] at hqhits
          simp at hqhits
        rw [if_neg hempty]
        unfold matchedForKey
        refine List.mem_filterMap.2 ⟨(c2, some q), ?_, rfl⟩
        refine List.mem_filter.2 ⟨List.mem_map.2 ⟨q, hqhits, rfl⟩, ?_⟩
        simp [hk2]
      · exact Or.inr (ih.2 ⟨c2, hc2, hk2, hq2, hcont2⟩)

theorem collect_by_grade_single (matched : List BoundaryRow) (p : BoundaryRow)
    (hall : ∀ q ∈ matched, q = p) (hmem : p ∈ matched) :
    collect_by_grade matched =
      { es := if p.grade_cat == "ES" then [p.school_id] else [],
        ms := if p.grade_cat == "MS" then [p.school_id] else [],
        hs := if p.grade_cat == "HS" then [p.school_id] else [] } := by
  have hfield : ∀ g : String,
      dedupByKey (fun i => i)
        ((matched.filter (fun q => q.grade_cat == g)).map (fun q => q.school_id)) =
      if p.grade_cat == g then [p.school_id] else [] := by
    intro g
    by_cases hg : p.grade_cat == g
    · rw [if_pos hg]
      have hfe : matched.filter (fun q => q.grade_cat == g) = matched := by
        refine List.filter_eq_self.2 ?_
        intro q hq
        rw [hall q hq]
        exact hg
      rw [hfe]
      refine dedupByKey_const (fun i => i) (matched.map (fun q => q.school_id))
        p.school_id ?_ ?_
      · intro x hx
        rcases List.mem_map.1 hx with ⟨q, hq, hxq⟩
        rw [← hxq, hall q hq]
      · intro hnil
        rw [List.map_eq_nil_iff.1 hnil] at hmem
        simp at hmem
    · rw [if_neg hg]
      have hfe : matched.filter (fun q => q.grade_cat == g) = [] := by
        refine List.filter_eq_nil_iff.2 ?_
        intro q hq
        rw [hall q hq]
        exact hg
      rw [hfe]
      rfl
  unfold collect_by_grade
  rw [hfield "ES", hfield "MS", hfield "HS"]

/-! ## Concrete data used by the witnesses and counterexamples -/

def demoScore (a b : String) : Nat :=
  if a == "Lincoln Elem" && b == "Lincoln Elementary School" then 92 else 0

def demoSchoolRows : List SchoolRow :=
  [{ school_id := 100, school_nm := "Alpha", grade_cat := "ES", file_year := "1213" },
   { school_id := 100, school_nm := "Alpha", grade_cat := "ES", file_year := "1314" }]

def demoComputedC : ClosureRow :=
  { school_id := some 100, school_nm := "Alpha", grade_cat := some "ES",
    last_open_year := 2013, closure_year := 2014 }

def demoComputedCs : List ClosureRow := [demoComputedC]

def demoDupA : ClosureRow :=
  { school_id := some 1, school_nm := "Alpha", grade_cat := some "ES",
    last_open_year := 2014, closure_year := 2015 }

def demoDupB : ClosureRow :=
  { school_id := some 1, school_nm := "Alpha", grade_cat := some "HS",
    last_open_year := 2012, closure_year := 2013 }

def demoReview95 : AddrReviewRow :=
  { raw_school_name := "Lincoln Elem", raw_address := "123 Main St",
    matched_address := "123 Main St", matched_school_id := some 610001,
    matched_school_nm := "Lincoln Elementary School", matched_grade_cat := some "ES",
    addr_match_score := 95 }

def demoReview50 : AddrReviewRow :=
  { raw_school_name := "Foo", raw_address := "9 Oak", matched_address := "9 Oak Ave",
    matched_school_id := some 610002, matched_school_nm := "Foo School",
    matched_grade_cat := some "ES", addr_match_score := 50 }

def demoRefClosure : ClosureRow :=
  { school_id := some 9, school_nm := "Ref School", grade_cat := some "ES",
    last_open_year := 2009, closure_year := 2010 }

def demoMatched2013 : Matched2013 :=
  { school := "Foo School", school_nm := "Foo", matched_name := "Foo School",
    match_score := 95, school_id := some 77, grade_cat := some "ES" }

def demoContainsAll (_ : BoundaryRow) (_ : CrimeRow) : Bool := true

def demoCrimeA : CrimeRow :=
  { cid := 7, cdate := "2013-05-01", primary_type := "THEFT", cyear := 2013 }

def demoPolyMatch : BoundaryRow := { school_id := 1, grade_cat := "ES", file_year := "1213" }

def demoPolyStale : BoundaryRow := { school_id := 2, grade_cat := "ES", file_year := "1112" }

def demoContainsOne (p : BoundaryRow) (c : CrimeRow) : Bool :=
  decide (p.school_id = 5 ∧ c.cid = 8)

def demoCrimeB : CrimeRow :=
  { cid := 8, cdate := "2013-06-01", primary_type := "BATTERY", cyear := 2013 }

def demoPolyOnly : BoundaryRow := { school_id := 5, grade_cat := "HS", file_year := "1213" }

/-! ## Claim theorems -/

/-- Claim C1: after the final de-duplication step of closure reconciliation
(04a_finalize_closures.py lines 137-143) the table all_close has at most one
row per SCHOOL_ID, and every kept row is one of the merged rows whose
closure_year is least among the merged rows sharing its SCHOOL_ID (rows are
sorted by closure_year ascending and the first is kept). -/
theorem allClose_dedup_unique_earliest (computed ref : List ClosureRow)
    (r : ClosureRow) (hr : r ∈ allClose04a computed ref) :
    (allClose04a computed ref).Pairwise (fun a b => a.school_id ≠ b.school_id) ∧
    r ∈ allCloseBeforeDedup computed ref ∧
    ∀ s ∈ allCloseBeforeDedup computed ref, s.school_id = r.school_id →
      r.closure_year ≤ s.closure_year := by
  exact ⟨finalDedup_pairwise (allCloseBeforeDedup computed ref),
    mem_of_mem_finalDedup (allCloseBeforeDedup computed ref) r hr,
    finalDedup_min (allCloseBeforeDedup computed ref) r hr⟩

theorem allClose_dedup_unique_earliest_witness :
    demoDupB ∈ allCloseBeforeDedup [demoDupA, demoDupB] [] ∧
    demoDupB.closure_year ≤ demoDupA.closure_year := by
  have h := allClose_dedup_unique_earliest [demoDupA, demoDupB] [] demoDupB (by decide)
  exact ⟨h.2.1, h.2.2 demoDupA (by decide) (by decide)⟩

/-- Claim C2: every closure record produced by any pass of the pipeline
(computed closures, the 04a address-based candidates, the reference-based
rows, the welcoming additions, the final_school_closure additions, and the
final merged table) satisfies closure_year = last_open_year + 1. -/
theorem closure_year_eq_last_open_succ
    (rows : List SchoolRow) (cs : List ClosureRow)
    (hcomp : computedClosures rows = some cs)
    (score : String → String → Nat)
    (review review2 : List AddrReviewRow)
    (refRows : List RefRow) (shape_names : List String) (shape_ids : List Int)
    (closures clos2 : List ClosureRow) (matched : List Matched2013) :
    (∀ c ∈ cs, c.closure_year = c.last_open_year + 1) ∧
    (∀ c ∈ addrClosures04a review, c.closure_year = c.last_open_year + 1) ∧
    (∀ c ∈ refClosures score refRows shape_names shape_ids,
      c.closure_year = c.last_open_year + 1) ∧
    (∀ c ∈ welcomingNewRows clos2 matched, c.closure_year = c.last_open_year + 1) ∧
    (∀ c ∈ (toAddFSC closures review2).map assignFSC,
      c.closure_year = c.last_open_year + 1) ∧
    (∀ c ∈ allClose04a cs (refClosures score refRows shape_names shape_ids),
      c.closure_year = c.last_open_year + 1) := by
  have hcompSpec : ∀ c ∈ cs, c.closure_year = c.last_open_year + 1 := by
    intro c hc
    rcases computedClosures_mem_elim rows cs hcomp c hc with ⟨⟨k, hk, hck⟩, _⟩
    exact (closureFor_fields rows k c hck).2.2.2
  have href : ∀ c ∈ refClosures score refRows shape_names shape_ids,
      c.closure_year = c.last_open_year + 1 := by
    intro c hc
    rcases List.mem_filterMap.1 hc with ⟨r, _, hr⟩
    rcases Option.map_eq_some'.1 hr with ⟨sid, _, hc2⟩
    rw [← hc2]
    simp only []
    omega
  refine ⟨hcompSpec, ?_, href, ?_, ?_, ?_⟩
  · intro c hc
    rcases List.mem_map.1 hc with ⟨r, _, hcr⟩
    rw [← hcr]
    rfl
  · intro c hc
    rcases List.mem_map.1 hc with ⟨m, _, hcm⟩
    rw [← hcm]
    rfl
  · intro c hc
    rcases List.mem_map.1 hc with ⟨a, _, hca⟩
    rw [← hca]
    rfl
  · intro c hc
    have hmem := mem_of_mem_finalDedup
      (allCloseBeforeDedup cs (refClosures score refRows shape_names shape_ids)) c hc
    rcases List.mem_append.1 hmem with h | h
    · exact hcompSpec c h
    · exact href c (List.mem_of_mem_filter h)

theorem closure_year_eq_last_open_succ_witness :
    demoComputedC.closure_year = demoComputedC.last_open_year + 1 := by
  have h := closure_year_eq_last_open_succ demoSchoolRows demoComputedCs (by decide)
    demoScore [] [] [] [] [] [] [] []
  exact h.1 demoComputedC (by decide)

/-- Claim C3: for every raw string and candidate set a fuzzy match is
accepted (its matched_id is non-null) exactly when its similarity score
reaches the threshold (greater or equal, not strictly greater); when the
score falls below the threshold, matched_name and matched_id are nulled
while the score column itself is kept.  The threshold is positive in every
use of the script (80 and 90) and ref_ids is parallel to ref_names. -/
theorem fuzzy_accept_iff_threshold (score : String → String → Nat)
    (ref_names : List String) (ref_ids : List Int) (t : Nat) (nm : String)
    (hlen : ref_names.length = ref_ids.length) (ht : 0 < t) :
    ((fuzzyMatchRow score ref_names ref_ids t nm).matched_id.isSome = true ↔
      t ≤ (fuzzyMatchRow score ref_names ref_ids t nm).score) ∧
    (fuzzyMatchRow score ref_names ref_ids t nm).score =
      (extractOneD score nm ref_names).2 ∧
    ((fuzzyMatchRow score ref_names ref_ids t nm).score < t →
      (fuzzyMatchRow score ref_names ref_ids t nm).matched_name = none ∧
      (fuzzyMatchRow score ref_names ref_ids t nm).matched_id = none) := by
  refine ⟨⟨?_, ?_⟩, fuzzyMatchRow_score score ref_names ref_ids t nm, ?_⟩
  · intro hsome
    by_cases hlt : (extractOneD score nm ref_names).2 < t
    · rw [fuzzyMatchRow_low score ref_names ref_ids t nm hlt] at hsome
      simp at hsome
    · rw [fuzzyMatchRow_score score ref_names ref_ids t nm]
      exact le_of_not_lt hlt
  · intro hle
    rw [fuzzyMatchRow_score score ref_names ref_ids t nm] at hle
    have hnlt : ¬ (extractOneD score nm ref_names).2 < t := not_lt.2 hle
    rw [fuzzyMatchRow_high score ref_names ref_ids t nm hnlt]
    cases hnames : ref_names with
    | nil =>
      exfalso
      rw [hnames] at hle
      have : (extractOneD score nm ([] : List String)).2 = 0 := rfl
      rw [this] at hle
      exact absurd (lt_of_lt_of_le ht hle) (lt_irrefl 0)
    | cons n ns =>
      rw [← hnames]
      have hmem : (extractOneD score nm ref_names).1 ∈ ref_names := by
        refine extractOneD_fst_mem score nm ref_names ?_
        rw [hnames]
        simp
      exact dictLookup_zip_isSome ref_names ref_ids
        (extractOneD score nm ref_names).1 hmem hlen
  · intro hlow
    rw [fuzzyMatchRow_score score ref_names ref_ids t nm] at hlow
    rw [fuzzyMatchRow_low score ref_names ref_ids t nm hlow]
    exact ⟨rfl, rfl⟩

theorem fuzzy_accept_iff_threshold_witness :
    (fuzzyMatchRow demoScore ["Lincoln Elementary School"] [610001] 90
      "Lincoln Elem").matched_id.isSome = true := by
  have h := fuzzy_accept_iff_threshold demoScore ["Lincoln Elementary School"]
    [610001] 90 "Lincoln Elem" (by decide) (by decide)
  exact h.1.mpr (by decide)

/-- Claim C4: fuzzy-match acceptance is monotonic in the threshold.  For a
fixed input and thresholds t1 <= t2, every row accepted at t2 is accepted
at t1 (same position in the output), so raising the threshold never
increases the number of accepted matches. -/
theorem fuzzy_accept_monotone_threshold (score : String → String → Nat)
    (raw_names ref_names : List String) (ref_ids : List Int) (t1 t2 : Nat)
    (h : t1 ≤ t2) :
    (∀ (i : Nat) (r2 : MatchRow),
      (fuzzy_match_ids score raw_names ref_names ref_ids t2)[i]? = some r2 →
      acceptedRow r2 = true →
      ∃ r1, (fuzzy_match_ids score raw_names ref_names ref_ids t1)[i]? = some r1 ∧
        acceptedRow r1 = true) ∧
    (fuzzy_match_ids score raw_names ref_names ref_ids t2).countP acceptedRow ≤
      (fuzzy_match_ids score raw_names ref_names ref_ids t1).countP acceptedRow := by
  constructor
  · intro i r2 hget hacc
    simp only [fuzzy_match_ids] at hget
    rw [List.getElem?_map] at hget
    rcases Option.map_eq_some'.1 hget with ⟨raw, hraw, hr2⟩
    refine ⟨fuzzyMatchRow score ref_names ref_ids t1 raw, ?_, ?_⟩
    · simp only [fuzzy_match_ids]
      rw [List.getElem?_map, hraw]
      rfl
    · refine acceptedRow_mono score ref_names ref_ids t1 t2 raw h ?_
      rw [hr2]
      exact hacc
  · exact countP_accepted_mono score ref_names ref_ids t1 t2 h raw_names

theorem fuzzy_accept_monotone_threshold_witness :
    (fuzzy_match_ids demoScore ["Lincoln Elem"] ["Lincoln Elementary School"]
        [610001] 95).countP acceptedRow ≤
    (fuzzy_match_ids demoScore ["Lincoln Elem"] ["Lincoln Elementary School"]
        [610001] 80).countP acceptedRow := by
  exact (fuzzy_accept_monotone_threshold demoScore ["Lincoln Elem"]
    ["Lincoln Elementary School"] [610001] 80 95 (by decide)).2

/-- Claim C5: each computed closure record carries, for its
(SCHOOL_ID, GRADE_CAT) pair, the greatest academic_year_start (first two
digits of file_year plus 2000) among the boundary rows of that pair as
last_open_year, closure_year one greater, and a record is emitted exactly
when closure_year lies strictly before the final covered year 2019. -/
theorem computed_closure_greatest_year (rows : List SchoolRow) (cs : List ClosureRow)
    (hcomp : computedClosures rows = some cs) :
    (∀ c ∈ cs, ∃ k ∈ pairKeys rows, ∃ ys,
      c.school_id = some k.1 ∧ c.grade_cat = some k.2 ∧
      traverseOption academicYearStart (groupFileYears rows k) = some ys ∧
      c.last_open_year ∈ ys ∧ (∀ b ∈ ys, b ≤ c.last_open_year) ∧
      c.closure_year = c.last_open_year + 1 ∧ c.closure_year < 2019) ∧
    (∀ k ∈ pairKeys rows, ∀ y, lastOpenYear rows k = some y → y + 1 < 2019 →
      ∃ c ∈ cs, c.school_id = some k.1 ∧ c.grade_cat = some k.2 ∧
        c.last_open_year = y ∧ c.closure_year = y + 1) := by
  constructor
  · intro c hc
    rcases computedClosures_mem_elim rows cs hcomp c hc with ⟨⟨k, hk, hck⟩, hlt⟩
    rcases closureFor_fields rows k c hck with ⟨hlast, hid, hgc, hcy⟩
    rcases lastOpenYear_greatest rows k c.last_open_year hlast with ⟨ys, hys, hmem, hmax⟩
    exact ⟨k, hk, ys, hid, hgc, hys, hmem, hmax, hcy, hlt⟩
  · exact computedClosures_complete rows cs hcomp

theorem computed_closure_greatest_year_witness :
    demoComputedC ∈ demoComputedCs := by
  have h := computed_closure_greatest_year demoSchoolRows demoComputedCs (by decide)
  rcases h.2 (100, "ES") (by decide) 2013 (by decide) (by decide) with ⟨c, hc, h1, h2, h3, h4⟩
  have hc2 : c ∈ [demoComputedC] := hc
  rw [List.mem_singleton.1 hc2] at hc
  exact hc

theorem not_in_ids {l : List ClosureRow} {x : Option Int}
    (h : (!(l.any (fun c => c.school_id == x))) = true) :
    ∀ e ∈ l, e.school_id ≠ x := by
  intro e he heq
  rw [Bool.not_eq_true'] at h
  have h2 : l.any (fun c => c.school_id == x) = true :=
    List.any_eq_true.2 ⟨e, he, by simp [heq]⟩
  rw [h2] at h
  cases h

/-- Claim C6: each reconciliation pass is purely additive on the closure
table.  The existing rows form an unchanged initial segment of the table
after the pass, and every appended row carries a SCHOOL_ID absent from the
existing table (04a reference pass, final_school_closure address pass,
welcoming_school_additions pass). -/
theorem reconciliation_pass_additive
    (computed ref closures clos2 : List ClosureRow)
    (review : List AddrReviewRow) (matched : List Matched2013)
    (r1 r2 r3 : ClosureRow)
    (h1 : r1 ∈ (allCloseBeforeDedup computed ref).drop computed.length)
    (h2 : r2 ∈ (updatedFSC closures review).drop closures.length)
    (h3 : r3 ∈ (updatedWelcoming clos2 matched).drop clos2.length) :
    (allCloseBeforeDedup computed ref).take computed.length = computed ∧
    (updatedFSC closures review).take closures.length = closures ∧
    (updatedWelcoming clos2 matched).take clos2.length = clos2 ∧
    (r1 ∈ ref ∧ ∀ e ∈ computed, e.school_id ≠ r1.school_id) ∧
    ((∃ a ∈ toAddFSC closures review, assignFSC a = r2) ∧
      ∀ e ∈ closures, e.school_id ≠ r2.school_id) ∧
    (r3 ∈ welcomingNewRows clos2 matched ∧ ∀ e ∈ clos2, e.school_id ≠ r3.school_id) := by
  have h1d : r1 ∈ toAddRef computed ref := by
    rw [show allCloseBeforeDedup computed ref = computed ++ toAddRef computed ref from rfl,
      List.drop_left] at h1
    exact h1
  have h2d : r2 ∈ (toAddFSC closures review).map assignFSC := by
    rw [show updatedFSC closures review =
      closures ++ (toAddFSC closures review).map assignFSC from rfl, List.drop_left] at h2
    exact h2
  have h3d : r3 ∈ welcomingNewRows clos2 matched := by
    rw [show updatedWelcoming clos2 matched =
      clos2 ++ welcomingNewRows clos2 matched from rfl, List.drop_left] at h3
    exact h3
  refine ⟨List.take_left computed (toAddRef computed ref),
    List.take_left closures ((toAddFSC closures review).map assignFSC),
    List.take_left clos2 (welcomingNewRows clos2 matched), ?_, ?_, ?_⟩
  · have h1f : r1 ∈ ref.filter
        (fun r => !(computed.any (fun c => c.school_id == r.school_id))) := h1d
    refine ⟨List.mem_of_mem_filter h1f, ?_⟩
    have hp1 : (!(computed.any (fun c => c.school_id == r1.school_id))) = true :=
      (List.mem_filter.1 h1f).2
    exact not_in_ids hp1
  · rcases List.mem_map.1 h2d with ⟨a, ha, haa⟩
    refine ⟨⟨a, ha, haa⟩, ?_⟩
    have haf : a ∈ (addrUniqueFSC review).filter
        (fun r => !(closures.any (fun c => c.school_id == r.matched_school_id))) := ha
    have hp2 : (!(closures.any (fun c => c.school_id == a.matched_school_id))) = true :=
      (List.mem_filter.1 haf).2
    have hids := not_in_ids hp2
    intro e he
    rw [← haa]
    exact hids e he
  · rcases List.mem_map.1 h3d with ⟨m, hm, hmr⟩
    refine ⟨h3d, ?_⟩
    have hmf : m ∈ matched.filter
        (fun m2 => !(clos2.any (fun c => c.school_id == m2.school_id))) := hm
    have hp3 : (!(clos2.any (fun c => c.school_id == m.school_id))) = true :=
      (List.mem_filter.1 hmf).2
    have hids := not_in_ids hp3
    intro e he
    rw [← hmr]
    exact hids e he

def demoWelcomeRow : ClosureRow :=
  { school_id := some 77, school_nm := "Foo", grade_cat := some "ES",
    last_open_year := 2013, closure_year := 2014 }

theorem reconciliation_pass_additive_witness :
    (allCloseBeforeDedup [demoDupA] [demoRefClosure]).take 1 = [demoDupA] ∧
    demoDupA.school_id ≠ demoRefClosure.school_id ∧
    demoDupA.school_id ≠ (assignFSC demoReview50).school_id := by
  have h := reconciliation_pass_additive [demoDupA] [demoRefClosure] [demoDupA] [demoDupA]
    [demoReview50] [demoMatched2013] demoRefClosure (assignFSC demoReview50) demoWelcomeRow
    (by decide) (by decide) (by decide)
  exact ⟨h.1, h.2.2.2.1.2 demoDupA (by decide), h.2.2.2.2.1.2 demoDupA (by decide)⟩

def demoAddrClosure : ClosureRow :=
  { school_id := some 610001, school_nm := "Lincoln Elementary School",
    grade_cat := some "ES", last_open_year := 2012, closure_year := 2013 }

/-- Claim C7 (code bug evaluation): in 04a_finalize_closures.py the
address-based candidates are filtered to addr_match_score >= 90 and
assigned 2012/2013, and to_add_addr selects the new ids, but all_close is
built from computed and to_add_ref only, so the selected address rows never
reach the final table (the script nevertheless prints that it is adding
them); in final_school_closure.py the address rows that are appended are
not filtered by score at all, as the score-50 row below shows. -/
theorem addr_pass_divergence :
    toAddAddr [] [demoReview95] = [demoAddrClosure] ∧
    allClose04a [] [] = [] ∧
    (updatedFSC [] [demoReview50]).map (fun r => r.school_id) = [some 610002] ∧
    demoReview50.addr_match_score < 90 ∧
    (updatedFSC [] [demoReview50]).map (fun r => (r.last_open_year, r.closure_year)) =
      [(2012, 2013)] := by decide

/-- Claim C8 counterexample: the crime demoCrimeA lies inside exactly one
polygon whose academic-year code matches its year (demoPolyMatch), yet it
also lies inside the stale polygon demoPolyStale of another year, and the
containment join output lists both SCHOOL_IDs: the grade lists are not
limited to the year-matching polygon because the join applies no temporal
filter. -/
theorem containment_join_stale_match :
    demoContainsAll demoPolyMatch demoCrimeA = true ∧
    demoContainsAll demoPolyStale demoCrimeA = true ∧
    yearMatches demoPolyMatch demoCrimeA.cyear = true ∧
    yearMatches demoPolyStale demoCrimeA.cyear = false ∧
    collectForKey (sjoinWithinRows demoContainsAll [demoCrimeA]
        [demoPolyMatch, demoPolyStale]) (crimeKey demoCrimeA) =
      { es := [1, 2], ms := [], hs := [] } := by decide

/-- Claim C8 (amended): for a crime inside exactly one boundary polygon of
any year (with that polygon's year code matching the crime's year), the
containment join output for the crime's groupby key holds exactly that
polygon's SCHOOL_ID in the grade-category list of its GRADE_CAT and
nothing in the other lists. -/
theorem containment_join_unique_polygon
    (contains : BoundaryRow → CrimeRow → Bool) (crimes : List CrimeRow)
    (polys : List BoundaryRow) (c : CrimeRow) (p : BoundaryRow)
    (hc : c ∈ crimes)
    (hkey : ∀ c2 ∈ crimes, crimeKey c2 = crimeKey c → c2 = c)
    (hp : p ∈ polys) (hcp : contains p c = true)
    (honly : ∀ q ∈ polys, q ≠ p → contains q c = false)
    (hyr : yearMatches p c.cyear = true) :
    collectForKey (sjoinWithinRows contains crimes polys) (crimeKey c) =
      { es := if p.grade_cat == "ES" then [p.school_id] else [],
        ms := if p.grade_cat == "MS" then [p.school_id] else [],
        hs := if p.grade_cat == "HS" then [p.school_id] else [] } := by
  show collect_by_grade (matchedForKey (sjoinWithinRows contains crimes polys)
    (crimeKey c)) = _
  refine collect_by_grade_single _ p ?_ ?_
  · intro q hq
    rcases (mem_matchedForKey contains polys (crimeKey c) q crimes).1 hq with
      ⟨c2, hc2, hk2, hq2, hcont2⟩
    have hc2c := hkey c2 hc2 hk2
    subst hc2c
    by_cases hqp : q = p
    · exact hqp
    · rw [honly q hq2 hqp] at hcont2
      cases hcont2
  · exact (mem_matchedForKey contains polys (crimeKey c) p crimes).2 ⟨c, hc, rfl, hp, hcp⟩

theorem containment_join_unique_polygon_witness :
    collectForKey (sjoinWithinRows demoContainsOne [demoCrimeB] [demoPolyOnly])
      (crimeKey demoCrimeB) = { es := [], ms := [], hs := [5] } := by
  have h := containment_join_unique_polygon demoContainsOne [demoCrimeB] [demoPolyOnly]
    demoCrimeB demoPolyOnly (by decide) (by decide) (by decide) (by decide)
    (by decide) (by decide)
  exact h.trans (by decide)

theorem rename_targets_fixed : ∀ kv ∈ rename_map, renameColumn kv.2 = kv.2 := by decide

theorem renameColumn_idem (x : String) :
    renameColumn (renameColumn x) = renameColumn x := by
  cases hfind : rename_map.find? (fun kv => kv.1 == x) with
  | none =>
    have hx : renameColumn x = x := by unfold renameColumn; rw [hfind]
    rw [hx]
    exact hx
  | some kv =>
    have hkv : kv ∈ rename_map := List.mem_of_find?_eq_some hfind
    have hx : renameColumn x = kv.2 := by unfold renameColumn; rw [hfind]
    rw [hx]
    exact rename_targets_fixed kv hkv

/-- Claim C9: column-rename normalization is idempotent.  Applying the
fixed rename mapping twice yields the same column names as applying it
once, no target of the mapping is itself a key of the mapping, and a
column that is not a key passes through unchanged. -/
theorem rename_idempotent (cols : List String) (c : String)
    (hc : rename_map.all (fun kv => !(kv.1 == c)) = true) :
    renameColumns (renameColumns cols) = renameColumns cols ∧
    (∀ kv ∈ rename_map, ∀ kv2 ∈ rename_map, kv2.1 ≠ kv.2) ∧
    renameColumn c = c := by
  refine ⟨?_, by decide, ?_⟩
  · unfold renameColumns
    rw [List.map_map]
    refine List.map_congr_left ?_
    intro a _
    exact renameColumn_idem a
  · have hnone : rename_map.find? (fun kv => kv.1 == c) = none := by
      refine List.find?_eq_none.2 ?_
      intro kv hkv hcontra
      have h2 : (!(kv.1 == c)) = true := List.all_eq_true.1 hc kv hkv
      rw [Bool.not_eq_true'] at h2
      rw [hcontra] at h2
      cases h2
    unfold renameColumn
    rw [hnone]

theorem rename_idempotent_witness :
    renameColumns (renameColumns ["SchoolID", "the_geom"]) =
      renameColumns ["SchoolID", "the_geom"] ∧
    renameColumn "the_geom" = "the_geom" := by
  have h := rename_idempotent ["SchoolID", "the_geom"] "the_geom" (by decide)
  exact ⟨h.1, h.2.2⟩

/-- Claim C10: the fuzzy matcher is total on an empty candidate set.  With
no candidate names, process.extractOne returns none and the wrapper
defaults the per-row match to ("", 0); since 0 is below every positive
threshold, the row is treated as rejected (matched name and id nulled)
whenever the threshold is greater than 0. -/
theorem fuzzy_empty_candidates_default (score : String → String → Nat)
    (ref_ids : List Int) (t : Nat) (nm : String) (ht : 0 < t) :
    extractOne score nm [] = none ∧
    extractOneD score nm [] = ("", 0) ∧
    fuzzyMatchRow score [] ref_ids t nm =
      { matched_name := none, matched_id := none, score := 0 } := by
  refine ⟨rfl, rfl, ?_⟩
  have h0 : (extractOneD score nm ([] : List String)).2 < t := ht
  rw [fuzzyMatchRow_low score [] ref_ids t nm h0]
  rfl

theorem fuzzy_empty_candidates_default_witness :
    fuzzyMatchRow demoScore [] [] 80 "Anything" =
      { matched_name := none, matched_id := none, score := 0 } := by
  exact (fuzzy_empty_candidates_default demoScore [] 80 "Anything" (by decide)).2.2
